import Mathlib

/-!
Shallow embedding of the A20Core event publication and webhook delivery
subsystem (src/hub/src/models/EventManager.js, the event tables of
src/database/schemas/01_core_tables.sql, the POST /events route of
src/hub/src/api/routes.js, and the background sweep of startBackgroundJobs).

Database tables become lists of rows inside an explicit `HubState`;
`CURRENT_TIMESTAMP` becomes an explicit `now : Nat` argument (seconds);
the outbound HTTP call becomes an oracle `Webhook` mapping an
(event, subscription) pair to either a fulfilled axios response
(status code and body — axios fulfils exactly for 2xx responses) or a
rejection message (network error, timeout, or non-2xx status).
Database faults are outside the model: every query is total.
-/

namespace A20

/-! ## JSON values

JSONB columns are modelled by `JValue`.  JavaScript numbers are IEEE
doubles; no claim depends on numeric arithmetic, only on (strict)
equality, so numeric literals are modelled as integers. -/

inductive JValue where
  | null : JValue
  | bool : Bool → JValue
  | num : Int → JValue
  | str : String → JValue
  | arr : List JValue → JValue
  | obj : List (String × JValue) → JValue

/-- JavaScript strict equality `===` on two values that come from two
separate `JSON.parse` calls (the payload and the filter are parsed
independently from their JSONB columns): primitives compare by value,
while two separately parsed arrays or objects are distinct heap
references and therefore never `===`-equal. -/
def jsStrictEq : JValue → JValue → Bool
  | .null, .null => true
  | .bool a, .bool b => a == b
  | .num a, .num b => a == b
  | .str a, .str b => a == b
  | _, _ => false

/-- Canonical array index: JavaScript treats the string key `"7"` as the
array index 7 but `"07"` or `"+7"` as ordinary (absent) properties. -/
def canonIndex (k : String) : Option Nat :=
  match k.toNat? with
  | some n => if toString n == k then some n else none
  | none => none

/-- JavaScript property access `v[key]`, returning `none` where JS yields
`undefined`.  Objects look keys up; arrays accept canonical numeric
indices; on other values (where payloads carry no data) the access is
`undefined`. -/
def jGet : JValue → String → Option JValue
  | .obj kvs, k => kvs.lookup k
  | .arr xs, k => (canonIndex k).bind fun n => xs.get? n
  | _, _ => none

/-! ## Rows and state -/

inductive EStatus where
  | pending | processing | completed | failed | retrying
deriving DecidableEq, Repr

/-- Statuses the event_queue state machine never leaves. -/
def isTerminal (s : EStatus) : Bool :=
  s == .completed || s == .failed

inductive DStatus where
  | success | failed
deriving DecidableEq, Repr

/-- One row of event_queue (01_core_tables.sql).  UUIDs are modelled as
naturals.  Columns defaulted by the schema and never read by the core
(metadata) are carried for completeness. -/
structure EventRow where
  event_id : Nat
  event_type : String
  source_app_id : Option Nat
  payload : JValue
  created_at : Nat
  processed_at : Option Nat
  scheduled_for : Option Nat
  status : EStatus
  retry_count : Nat
  max_retries : Nat
  error_message : Option String
  metadata : JValue

/-- One row of event_subscriptions.  `filter_criteria` is a nullable
JSONB object: `subscribe` stores either `NULL` or the JSON serialization
of an object, so the column is an optional association list. -/
structure Subscription where
  subscription_id : Nat
  app_id : Option Nat
  event_type : String
  webhook_url : String
  filter_criteria : Option (List (String × JValue))
  delivery_mode : String
  is_active : Bool

/-- One row of event_delivery_log, with exactly the columns `logDelivery`
writes (the remaining columns keep their schema defaults). -/
structure DeliveryRecord where
  event_id : Nat
  subscription_id : Nat
  status : DStatus
  http_status_code : Option Nat
  response_body : Option String
  error_message : Option String

structure HubState where
  events : List EventRow
  subs : List Subscription
  deliveryLog : List DeliveryRecord

/-- Outcome of `axios.post(webhook_url, envelope, ...)`: axios fulfils
with (HTTP status, body) exactly for 2xx responses and rejects with an
error message on network errors, timeouts and non-2xx statuses. -/
def Webhook : Type :=
  EventRow → Subscription → Except String (Nat × String)

/-! ## EventManager operations (EventManager.js) -/

/-- matchesFilter (EventManager.js:220-225):
`Object.entries(criteria).every(([key, value]) => payload[key] === value)`.
An absent payload key gives `undefined`, which is `===` to no JSON
value. -/
def matchesFilter (payload : JValue) (criteria : List (String × JValue)) : Bool :=
  criteria.all fun kv =>
    match jGet payload kv.1 with
    | some w => jsStrictEq w kv.2
    | none => false

/-- The guard at the top of deliverToSubscriber (EventManager.js:160-165):
`if (subscription.filter_criteria) { if (!matchesFilter(...)) return }`.
A SQL NULL column is falsy so the delivery proceeds; any present JSONB
object — including the empty object `{}` — is truthy and is handed to
`matchesFilter`. -/
def filterAllows (payload : JValue) : Option (List (String × JValue)) → Bool
  | none => true
  | some criteria => matchesFilter payload criteria

/-- The row transformation of updateEventStatus (EventManager.js:234-244):
`SET status = $1, processed_at = CASE WHEN $1 IN ('completed','failed')
THEN CURRENT_TIMESTAMP ELSE NULL END, error_message = $2`. -/
def updRow (now : Nat) (s : EStatus) (err : Option String) (e : EventRow) : EventRow :=
  { e with
    status := s
    processed_at := if isTerminal s then some now else none
    error_message := err }

/-- updateEventStatus (EventManager.js:234-244): the UPDATE targets the
rows matching `WHERE event_id = $3` and rewrites exactly the three
columns of `updRow`. -/
def updateEventStatus (now : Nat) (id : Nat) (s : EStatus) (err : Option String)
    (st : HubState) : HubState :=
  { st with events := st.events.map fun e => if e.event_id == id then updRow now s err e else e }

/-- Five minutes, the fixed retry backoff of scheduleRetry
(`INTERVAL '5 minutes'`), in seconds. -/
def retryBackoff : Nat := 5 * 60

/-- scheduleRetry (EventManager.js:251-261): `SET status = 'retrying',
retry_count = retry_count + 1, scheduled_for = CURRENT_TIMESTAMP +
INTERVAL '5 minutes' WHERE event_id = $1`.  The increment reads the
current column value of the row. -/
def scheduleRetry (now : Nat) (id : Nat) (st : HubState) : HubState :=
  { st with events := st.events.map fun e =>
      if e.event_id == id then
        { e with
          status := .retrying
          retry_count := e.retry_count + 1
          scheduled_for := some (now + retryBackoff) }
      else e }

/-- logDelivery (EventManager.js:271-289): one INSERT into
event_delivery_log. -/
def logDelivery (eid sid : Nat) (s : DStatus) (code : Option Nat)
    (body : Option String) (err : Option String) (st : HubState) : HubState :=
  { st with deliveryLog := st.deliveryLog ++ [⟨eid, sid, s, code, body, err⟩] }

/-- getSubscriptions (EventManager.js:106-114):
`WHERE event_type = $1 AND is_active = true`. -/
def getSubscriptions (eventType : String) (st : HubState) : List Subscription :=
  st.subs.filter fun s => s.event_type == eventType && s.is_active

/-- deliverToSubscriber (EventManager.js:158-187).  `event` is the row
fetched once at the top of deliverEvent, so the retry guard
`event.retry_count < event.max_retries` reads that snapshot, not the
current table row; `scheduleRetry`, by contrast, increments the current
row.  Every webhook failure is caught here and folded into the log and
the retry decision — this function itself never throws (absent store
faults, which are outside the model). -/
def deliverToSubscriber (web : Webhook) (now : Nat) (event : EventRow)
    (sub : Subscription) (st : HubState) : HubState :=
  if filterAllows event.payload sub.filter_criteria then
    match web event sub with
    | .ok res =>
        logDelivery event.event_id sub.subscription_id .success
          (some res.1) (some res.2) none st
    | .error msg =>
        let st1 := logDelivery event.event_id sub.subscription_id .failed
          none none (some msg) st
        if event.retry_count < event.max_retries then
          scheduleRetry now event.event_id st1
        else st1
  else st

/-- findEvent: `SELECT * FROM event_queue WHERE event_id = $1` followed by
`result.rows[0]`. -/
def findEvent (st : HubState) (id : Nat) : Option EventRow :=
  st.events.find? fun e => e.event_id == id

/-- deliverEvent (EventManager.js:121-150): fetch the event (throwing
`Event not found` when absent), fetch the active subscriptions of its
type, mark it `processing`, run deliverToSubscriber for every
subscription (`Promise.all`; modelled as a fold — each branch touches
its own log records and only the target row, so the aggregate state is
order-insensitive), then write `completed`.  The catch branch that
writes `failed` fires only when a store write inside the fan-out throws,
which the fault-free store model excludes, so the success path always
ends with `updateEventStatus(eventId, 'completed')`. -/
def deliverEvent (web : Webhook) (now : Nat) (id : Nat) (st : HubState) :
    Except String HubState :=
  match findEvent st id with
  | none => .error "Event not found"
  | some event =>
      let subsList := getSubscriptions event.event_type st
      let st1 := updateEventStatus now id .processing none st
      let st2 := subsList.foldl (fun acc sub => deliverToSubscriber web now event sub acc) st1
      .ok (updateEventStatus now id .completed none st2)

/-! ## publishEvent and the POST /events route -/

/-- Errors surfaced by the publish path.  The code contains no
application-level validation: a missing `event_type` or `payload`
reaches the INSERT as NULL and is rejected by the corresponding NOT NULL
constraint of event_queue (01_core_tables.sql).  The `validation`
constructor is the error kind the specification's taxonomy names
(`ValidationError`, raised before touching the store); the embedded code
never produces it. -/
inductive PublishErr where
  | dbNotNull : String → PublishErr
  | validation : String → PublishErr
  | thrown : String → PublishErr
deriving DecidableEq, Repr

/-- Fresh event_id for an INSERT (`uuid_generate_v4()` default): rows are
never deleted, so the table length is a never-used identifier whenever
the well-formedness invariant `WF` below holds. -/
def freshEventId (st : HubState) : Nat := st.events.length

/-- The row built by the INSERT of publishEvent: listed columns from the
arguments, the rest from the schema defaults of event_queue
(`status 'pending'`, `retry_count 0`, `max_retries 3`,
`created_at CURRENT_TIMESTAMP`). -/
def mkEventRow (now : Nat) (etype : String) (src : Option Nat) (payload : JValue)
    (sched : Option Nat) (meta : JValue) (st : HubState) : EventRow :=
  { event_id := freshEventId st
    event_type := etype
    source_app_id := src
    payload := payload
    created_at := now
    processed_at := none
    scheduled_for := sched
    status := .pending
    retry_count := 0
    max_retries := 3
    error_message := none
    metadata := meta }

/-- publishEvent (EventManager.js:16-47) as invoked by the POST /events
route (routes.js:372-389).  The INSERT either violates a NOT NULL
constraint (no row is created) or appends the new `pending` row; a
non-scheduled event is then immediately handed to deliverEvent.  The
route has no transaction, so a throw after the INSERT would leave the
row in place — hence the state is returned alongside the result.  The
route maps any error onto a synchronous 400 response carrying the
message. -/
def publishEvent (web : Webhook) (now : Nat) (etype : Option String)
    (src : Option Nat) (payload : Option JValue) (sched : Option Nat)
    (meta : JValue) (st : HubState) : HubState × Except PublishErr Nat :=
  match etype with
  | none => (st, .error (.dbNotNull "event_type"))
  | some t =>
      match payload with
      | none => (st, .error (.dbNotNull "payload"))
      | some p =>
          let row := mkEventRow now t src p sched meta st
          let st1 : HubState := { st with events := st.events ++ [row] }
          match sched with
          | some _ => (st1, .ok row.event_id)
          | none =>
              match deliverEvent web now row.event_id st1 with
              | .ok st2 => (st2, .ok row.event_id)
              | .error msg => (st1, .error (.thrown msg))

/-! ## Subscription registry operations -/

def freshSubscriptionId (st : HubState) : Nat := st.subs.length

/-- subscribe (EventManager.js:54-82): INSERT with `is_active` left to its
schema default `true`; a falsy `filter_criteria` is stored as SQL
NULL. -/
def subscribe (appId : Option Nat) (etype : String) (url : String)
    (criteria : Option (List (String × JValue))) (mode : String)
    (st : HubState) : HubState :=
  { st with subs := st.subs ++
      [⟨freshSubscriptionId st, appId, etype, url, criteria, mode, true⟩] }

/-- unsubscribe (EventManager.js:89-99): soft-disable,
`SET is_active = false WHERE subscription_id = $1`. -/
def unsubscribe (id : Nat) (st : HubState) : HubState :=
  { st with subs := st.subs.map fun s =>
      if s.subscription_id == id then { s with is_active := false } else s }

/-! ## getPendingEvents and the scheduler sweep -/

/-- The WHERE clause of getPendingEvents (EventManager.js:296-307):
`status IN ('pending','retrying') AND (scheduled_for IS NULL OR
scheduled_for <= CURRENT_TIMESTAMP)`. -/
def isDue (now : Nat) (e : EventRow) : Bool :=
  (e.status == .pending || e.status == .retrying) &&
    (match e.scheduled_for with
     | none => true
     | some t => t ≤ now)

/-- ORDER BY created_at ASC. -/
def byCreated (a b : EventRow) : Prop := a.created_at ≤ b.created_at

instance : DecidableRel byCreated := fun a b => Nat.decLe a.created_at b.created_at

instance : IsTotal EventRow byCreated := ⟨fun a b => Nat.le_total a.created_at b.created_at⟩

instance : IsTrans EventRow byCreated :=
  ⟨fun _ _ _ h1 h2 => Nat.le_trans h1 h2⟩

/-- getPendingEvents (EventManager.js:296-307): WHERE filter, ORDER BY
created_at ASC, LIMIT $1. -/
def getPendingEvents (limit : Nat) (now : Nat) (st : HubState) : List EventRow :=
  (List.insertionSort byCreated (st.events.filter fun e => isDue now e)).take limit

/-- The interval of the event processing loop in startBackgroundJobs:
`setInterval(..., 5000)`. -/
def schedulerIntervalMs : Nat := 5000

/-- The batch bound of the sweep: `getPendingEvents(10)`. -/
def sweepBatchLimit : Nat := 10

/-- The `for (const event of pendingEvents) { await deliverEvent(...) }`
loop of startBackgroundJobs: strictly sequential, and a throw from
deliverEvent aborts the remaining batch elements (the surrounding
try/catch swallows it, keeping the state reached so far). -/
def processBatch (web : Webhook) (now : Nat) : List Nat → HubState → HubState × Option String
  | [], st => (st, none)
  | id :: rest, st =>
      match deliverEvent web now id st with
      | .ok st1 => processBatch web now rest st1
      | .error msg => (st, some msg)

/-- One tick of the event processing loop: pull the due batch, run the
sequential loop, and discard any caught error so the recurring timer
survives. -/
def sweepOnce (web : Webhook) (now : Nat) (st : HubState) : HubState :=
  (processBatch web now ((getPendingEvents sweepBatchLimit now st).map fun e => e.event_id) st).1

/-! ## System executions

A trace interleaves the externally triggered operations: publishes
(each POST /events), scheduler ticks, and subscription management.
Each step carries its own clock value and webhook environment. -/

inductive Cmd where
  | publish : Nat → Webhook → Option String → Option Nat → Option JValue →
      Option Nat → JValue → Cmd
  | sweep : Nat → Webhook → Cmd
  | subscribeCmd : Option Nat → String → String →
      Option (List (String × JValue)) → String → Cmd
  | unsubscribeCmd : Nat → Cmd

def execCmd : Cmd → HubState → HubState
  | .publish now web etype src payload sched meta, st =>
      (publishEvent web now etype src payload sched meta st).1
  | .sweep now web, st => sweepOnce web now st
  | .subscribeCmd appId etype url criteria mode, st =>
      subscribe appId etype url criteria mode st
  | .unsubscribeCmd id, st => unsubscribe id st

def execCmds : List Cmd → HubState → HubState
  | [], st => st
  | c :: cs, st => execCmds cs (execCmd c st)

/-- Well-formedness of the store: event_ids are exactly `0,…,n-1` in
insertion order — true of every state built by the system, since ids are
assigned by `freshEventId` and rows are never deleted. -/
def WF (st : HubState) : Prop :=
  st.events.map (fun e => e.event_id) = List.range st.events.length

end A20

namespace A20

/-! ## Concrete fixtures

The scenario inputs of the specification, evaluated against the
embedding above. -/

/-- A webhook environment in which every attempt fails (the subscriber
returns 500 on every request, so axios rejects). -/
def webAlwaysFail : Webhook := fun _ _ => .error "Request failed with status code 500"

/-- A webhook environment in which every attempt succeeds with 200. -/
def webAlwaysOk : Webhook := fun _ _ => .ok (200, "ok")

/-- The event of Scenario A/B: `order.created`, payload
`{id: 1, status: "new"}`, fresh pending row with the schema defaults. -/
def orderEvent : EventRow :=
  { event_id := 0
    event_type := "order.created"
    source_app_id := none
    payload := .obj [("id", .num 1), ("status", .str "new")]
    created_at := 0
    processed_at := none
    scheduled_for := none
    status := .pending
    retry_count := 0
    max_retries := 3
    error_message := none
    metadata := .obj [] }

/-- An active, unfiltered subscription for `order.created`. -/
def orderSub : Subscription :=
  { subscription_id := 0
    app_id := some 1
    event_type := "order.created"
    webhook_url := "http://subscriber.example/hook"
    filter_criteria := none
    delivery_mode := "async"
    is_active := true }

/-- One pending event, one matching active subscription. -/
def stOneSub : HubState :=
  { events := [orderEvent], subs := [orderSub], deliveryLog := [] }

/-- No events yet, four active unfiltered subscriptions for
`order.created`. -/
def stFourSubs : HubState :=
  { events := []
    subs := [
      { orderSub with subscription_id := 0 },
      { orderSub with subscription_id := 1 },
      { orderSub with subscription_id := 2 },
      { orderSub with subscription_id := 3 } ]
    deliveryLog := [] }

/-- An entirely empty store. -/
def stEmpty : HubState := { events := [], subs := [], deliveryLog := [] }

/-- Recognizer for the error kind the specification calls
`ValidationError` (an application-raised pre-insert validation
failure). -/
def isValidationErr : Except PublishErr Nat → Bool
  | .error (.validation _) => true
  | _ => false

/-! ## C1 -/

/-- C1 (code bug): the claim says an event whose dispatched attempts
failed with retry budget remaining transitions to `retrying` (and to
`failed` once the budget is exhausted, storing the last error).  The
code instead leaves such an event `completed`: deliverToSubscriber
catches the webhook failure (logging it and calling scheduleRetry), so
the `Promise.all` in deliverEvent resolves and the final
`updateEventStatus(eventId, 'completed')` overwrites the transient
`retrying` status and clears `error_message`.  Evaluated at the failing
input (Scenario B's event with one always-failing subscriber,
`retry_count 0 < max_retries 3`, at time 100): the event ends
`completed` with `processed_at` set, `error_message` null — only the
incremented `retry_count 1` and the 5-minute `scheduled_for 400` betray
the swallowed failure — and one `failed` delivery record. -/
theorem c1_failed_delivery_still_completed :
    ((deliverEvent webAlwaysFail 100 0 stOneSub).map
      (fun st =>
        (st.events.map fun (e : EventRow) =>
          (e.status, e.retry_count, e.scheduled_for, e.error_message, e.processed_at),
         st.deliveryLog.map fun (d : DeliveryRecord) => d.status))).toOption
      = some ([(.completed, 1, some 400, none, some 100)], [.failed]) := by
  rfl

/-! ## C3 -/

/-- C3 (code bug): the claim says `retry_count` never exceeds
`max_retries`.  The retry guard in deliverToSubscriber reads the
snapshot `event.retry_count` fetched at the top of deliverEvent, while
each scheduleRetry increments the live row; with four always-failing
matching subscriptions each guard sees the stale 0 < 3 and the four
increments drive the freshly published event's `retry_count` to
4 > `max_retries` = 3 in a single delivery pass (after which the C1 bug
parks it at `completed`, not `failed`). -/
theorem c3_retry_count_exceeds_max :
    ((publishEvent webAlwaysFail 50 (some "order.created") none
        (some (.obj [("id", .num 1)])) none (.obj []) stFourSubs).1.events.map
      fun (e : EventRow) =>
        (e.retry_count, e.max_retries, decide (e.retry_count ≤ e.max_retries), e.status))
      = [(4, 3, false, .completed)] := by
  decide

/-! ## C4 -/

/-- C4: the matcher contract.  A SQL NULL (absent) `filter_criteria`
always matches — that branch lives in deliverToSubscriber's truthiness
guard, embedded as `filterAllows` — and otherwise `matchesFilter`
accepts a payload exactly when every key of the filter is present in the
payload with a strictly (`===`) equal value; no type coercion, since
`jsStrictEq` equates only values of the same primitive shape.  The
matcher is embedded as a pure total function of its two arguments, which
is the purity half of the claim. -/
theorem c4_matcher_contract (P : JValue) (F : List (String × JValue)) :
    filterAllows P none = true ∧
    (matchesFilter P F = true ↔
      ∀ k v, (k, v) ∈ F → ∃ w, jGet P k = some w ∧ jsStrictEq w v = true) := by
  refine ⟨rfl, ?_⟩
  unfold matchesFilter
  rw [List.all_eq_true]
  constructor
  · intro h k v hkv
    have hp := h (k, v) hkv
    cases hg : jGet P k with
    | none => rw [hg] at hp; exact absurd hp (by simp)
    | some w => exact ⟨w, rfl, by rw [hg] at hp; exact hp⟩
  · intro h kv hkv
    obtain ⟨w, hw, he⟩ := h kv.1 kv.2 hkv
    rw [hw]
    exact he

/-- Witness for C4 at Scenario C's inputs: the filter
`{status: "shipped"}` against payload `{id: 1, status: "new"}` — the
key is present but the value differs, so the characterization yields a
non-match, while the absent filter matches. -/
theorem c4_matcher_contract_witness :
    filterAllows orderEvent.payload none = true ∧
    (matchesFilter orderEvent.payload [("status", .str "shipped")] = true ↔
      ∀ k v, (k, v) ∈ [(("status" : String), JValue.str "shipped")] →
        ∃ w, jGet orderEvent.payload k = some w ∧ jsStrictEq w v = true) :=
  c4_matcher_contract orderEvent.payload [("status", .str "shipped")]

/-! ## C9 -/

/-- C9: an empty-object filter matches every payload.  In JavaScript `{}`
is truthy, so the guard `if (subscription.filter_criteria)` sends it to
matchesFilter, whose `Object.entries({}).every(...)` is vacuously
true — unlike SQL NULL, which short-circuits in the guard; both roads
lead to a match. -/
theorem c9_empty_filter_matches (P : JValue) :
    filterAllows P (some []) = true ∧ matchesFilter P [] = true :=
  ⟨rfl, rfl⟩

/-- Witness for C9 at the Scenario A payload. -/
theorem c9_empty_filter_matches_witness :
    filterAllows orderEvent.payload (some []) = true ∧
    matchesFilter orderEvent.payload [] = true :=
  c9_empty_filter_matches orderEvent.payload

end A20

namespace A20

/-! ## C10 -/

/-- C10: frame conditions of updateEventStatus.  The UPDATE touches no
other table, leaves every row with a different event_id verbatim, and on
the targeted row rewrites exactly `status`, `processed_at` and
`error_message`: `error_message` is unconditionally overwritten with the
supplied value (the JS default `null` when the caller passes none), and
`processed_at` becomes the current timestamp exactly when the new status
is terminal and NULL otherwise — so re-entering `processing` erases any
`error_message` and `processed_at` left by an earlier cycle. -/
theorem c10_updateEventStatus_frame (now id : Nat) (s : EStatus)
    (err : Option String) (st : HubState) :
    (updateEventStatus now id s err st).subs = st.subs ∧
    (updateEventStatus now id s err st).deliveryLog = st.deliveryLog ∧
    (∀ e ∈ st.events, e.event_id ≠ id → e ∈ (updateEventStatus now id s err st).events) ∧
    (∀ e ∈ st.events, e.event_id = id →
      ∃ e' ∈ (updateEventStatus now id s err st).events,
        e'.event_id = e.event_id ∧ e'.event_type = e.event_type ∧
        e'.source_app_id = e.source_app_id ∧ e'.payload = e.payload ∧
        e'.created_at = e.created_at ∧ e'.retry_count = e.retry_count ∧
        e'.max_retries = e.max_retries ∧ e'.scheduled_for = e.scheduled_for ∧
        e'.metadata = e.metadata ∧ e'.status = s ∧
        e'.processed_at = (if isTerminal s then some now else none) ∧
        e'.error_message = err) := by
  refine ⟨rfl, rfl, ?_, ?_⟩
  · intro e he hne
    have hb : (e.event_id == id) = false := by
      simp [hne]
    exact List.mem_map.mpr ⟨e, he, by simp [hb]⟩
  · intro e he heq
    refine ⟨updRow now s err e, List.mem_map.mpr ⟨e, he, by simp [heq]⟩,
      rfl, rfl, rfl, rfl, rfl, rfl, rfl, rfl, rfl, rfl, rfl, rfl⟩

/-- Scenario B's event after a failed cycle: terminal `failed` with a
stored error and processed_at. -/
def failedOrderEvent : EventRow :=
  { orderEvent with
    status := .failed
    processed_at := some 60
    error_message := some "boom" }

/-- A store holding only `failedOrderEvent` and its subscription. -/
def stFailedEvent : HubState :=
  { events := [failedOrderEvent], subs := [orderSub], deliveryLog := [] }

/-- Witness for C10, applying the frame theorem at a concrete input:
writing `processing` over the failed cycle's row erases the stored error
and processed_at while the retry budget survives. -/
theorem c10_updateEventStatus_frame_witness :
    failedOrderEvent ∈ stFailedEvent.events ∧ failedOrderEvent.event_id = 0 ∧
    ∃ e' ∈ (updateEventStatus 70 0 .processing none stFailedEvent).events,
      e'.event_id = failedOrderEvent.event_id ∧
      e'.event_type = failedOrderEvent.event_type ∧
      e'.source_app_id = failedOrderEvent.source_app_id ∧
      e'.payload = failedOrderEvent.payload ∧
      e'.created_at = failedOrderEvent.created_at ∧
      e'.retry_count = failedOrderEvent.retry_count ∧
      e'.max_retries = failedOrderEvent.max_retries ∧
      e'.scheduled_for = failedOrderEvent.scheduled_for ∧
      e'.metadata = failedOrderEvent.metadata ∧ e'.status = .processing ∧
      e'.processed_at = (if isTerminal .processing then some 70 else none) ∧
      e'.error_message = none := by
  have h := (c10_updateEventStatus_frame 70 0 .processing none stFailedEvent).2.2.2
  exact ⟨List.mem_cons_self _ _, rfl,
    h failedOrderEvent (List.mem_cons_self _ _) rfl⟩

end A20

namespace A20

/-! ## Structural lemmas about the operations

The UPDATE statements of the engine rewrite columns but never insert or
delete event rows, so the sequence of event_ids is invariant under
everything but the INSERT of publishEvent; rows whose event_id differs
from the targeted one survive verbatim. -/

def evIds (st : HubState) : List Nat := st.events.map fun e => e.event_id

theorem evIds_updateEventStatus (now id : Nat) (s : EStatus) (err : Option String)
    (st : HubState) : evIds (updateEventStatus now id s err st) = evIds st := by
  unfold evIds updateEventStatus
  simp only [List.map_map]
  apply List.map_congr_left
  intro e _
  by_cases h : e.event_id = id
  · simp [h, updRow]
  · simp [h]

theorem evIds_scheduleRetry (now id : Nat) (st : HubState) :
    evIds (scheduleRetry now id st) = evIds st := by
  unfold evIds scheduleRetry
  simp only [List.map_map]
  apply List.map_congr_left
  intro e _
  by_cases h : e.event_id = id
  · simp [h]
  · simp [h]

theorem evIds_deliverToSubscriber (web : Webhook) (now : Nat) (ev : EventRow)
    (sub : Subscription) (st : HubState) :
    evIds (deliverToSubscriber web now ev sub st) = evIds st := by
  unfold deliverToSubscriber
  by_cases h : filterAllows ev.payload sub.filter_criteria
  · rw [if_pos h]
    cases hw : web ev sub with
    | ok r => rfl
    | error m =>
        dsimp only
        by_cases hr : ev.retry_count < ev.max_retries
        · rw [if_pos hr, evIds_scheduleRetry]; rfl
        · rw [if_neg hr]; rfl
  · rw [if_neg h]

theorem evIds_foldDeliver (web : Webhook) (now : Nat) (ev : EventRow)
    (subsList : List Subscription) (st : HubState) :
    evIds (subsList.foldl (fun acc sub => deliverToSubscriber web now ev sub acc) st)
      = evIds st := by
  induction subsList generalizing st with
  | nil => rfl
  | cons sub rest ih =>
      rw [List.foldl_cons, ih, evIds_deliverToSubscriber]

theorem evIds_deliverEvent (web : Webhook) (now id : Nat) (st st' : HubState)
    (h : deliverEvent web now id st = .ok st') : evIds st' = evIds st := by
  unfold deliverEvent at h
  cases hf : findEvent st id with
  | none => rw [hf] at h; exact absurd h (by simp)
  | some ev =>
      rw [hf] at h
      have := Except.ok.inj h
      subst this
      rw [evIds_updateEventStatus, evIds_foldDeliver, evIds_updateEventStatus]

theorem events_length_deliverEvent (web : Webhook) (now id : Nat)
    (st st' : HubState) (h : deliverEvent web now id st = .ok st') :
    st'.events.length = st.events.length := by
  have h1 := congrArg List.length (evIds_deliverEvent web now id st st' h)
  simpa [evIds] using h1

theorem mem_events_updateEventStatus (now id : Nat) (s : EStatus)
    (err : Option String) (st : HubState) (e : EventRow) (he : e ∈ st.events)
    (hne : e.event_id ≠ id) : e ∈ (updateEventStatus now id s err st).events := by
  have hb : (e.event_id == id) = false := by simp [hne]
  exact List.mem_map.mpr ⟨e, he, by simp [hb]⟩

theorem mem_events_scheduleRetry (now id : Nat) (st : HubState) (e : EventRow)
    (he : e ∈ st.events) (hne : e.event_id ≠ id) :
    e ∈ (scheduleRetry now id st).events := by
  have hb : (e.event_id == id) = false := by simp [hne]
  exact List.mem_map.mpr ⟨e, he, by simp [hb]⟩

theorem mem_events_deliverToSubscriber (web : Webhook) (now : Nat) (ev : EventRow)
    (sub : Subscription) (st : HubState) (e : EventRow) (he : e ∈ st.events)
    (hne : e.event_id ≠ ev.event_id) :
    e ∈ (deliverToSubscriber web now ev sub st).events := by
  unfold deliverToSubscriber
  by_cases h : filterAllows ev.payload sub.filter_criteria
  · rw [if_pos h]
    cases hw : web ev sub with
    | ok r => exact he
    | error m =>
        dsimp only
        by_cases hr : ev.retry_count < ev.max_retries
        · rw [if_pos hr]
          exact mem_events_scheduleRetry now ev.event_id _ e he hne
        · rw [if_neg hr]; exact he
  · rw [if_neg h]; exact he

theorem mem_events_foldDeliver (web : Webhook) (now : Nat) (ev : EventRow)
    (subsList : List Subscription) (st : HubState) (e : EventRow)
    (he : e ∈ st.events) (hne : e.event_id ≠ ev.event_id) :
    e ∈ (subsList.foldl (fun acc sub => deliverToSubscriber web now ev sub acc) st).events := by
  induction subsList generalizing st with
  | nil => exact he
  | cons sub rest ih =>
      rw [List.foldl_cons]
      exact ih _ (mem_events_deliverToSubscriber web now ev sub st e he hne)

/-- The row deliverEvent fetches carries the requested event_id. -/
theorem findEvent_id (st : HubState) (id : Nat) (ev : EventRow)
    (h : findEvent st id = some ev) : ev.event_id = id ∧ ev ∈ st.events := by
  unfold findEvent at h
  have h1 := List.find?_some h
  have h2 := List.mem_of_find?_eq_some h
  exact ⟨by simpa using h1, h2⟩

theorem mem_events_deliverEvent (web : Webhook) (now id : Nat) (st st' : HubState)
    (h : deliverEvent web now id st = .ok st') (e : EventRow) (he : e ∈ st.events)
    (hne : e.event_id ≠ id) : e ∈ st'.events := by
  unfold deliverEvent at h
  cases hf : findEvent st id with
  | none => rw [hf] at h; exact absurd h (by simp)
  | some ev =>
      rw [hf] at h
      have := Except.ok.inj h
      subst this
      have hid := (findEvent_id st id ev hf).1
      apply mem_events_updateEventStatus _ _ _ _ _ _ _ hne
      apply mem_events_foldDeliver
      · exact mem_events_updateEventStatus _ _ _ _ _ _ he hne
      · rw [hid]; exact hne

/-- A deliverEvent call on an id present in the store always succeeds:
the only throw of deliverEvent is the `Event not found` guard. -/
theorem deliverEvent_ok_of_found (web : Webhook) (now id : Nat) (st : HubState)
    (h : (findEvent st id).isSome) :
    ∃ st', deliverEvent web now id st = .ok st' := by
  unfold deliverEvent
  cases hf : findEvent st id with
  | none => rw [hf] at h; exact absurd h (by simp)
  | some ev => exact ⟨_, by rfl⟩

end A20

namespace A20

/-! ## C6 -/

/-- C6 counterexample: the claim says a publish with a missing payload
fails with a `ValidationError`.  Publishing `order.created` with no
payload against the empty store does fail synchronously with no row
created — but the error is the NOT NULL constraint violation of the
payload column bubbling up from the INSERT (publishEvent and the route
perform no validation and the codebase defines no ValidationError), not
an application-raised validation error. -/
theorem c6_no_validation_error_cex :
    (publishEvent webAlwaysOk 10 (some "order.created") none none none
      (.obj []) stEmpty).2 = .error (.dbNotNull "payload") ∧
    isValidationErr (publishEvent webAlwaysOk 10 (some "order.created") none none none
      (.obj []) stEmpty).2 = false ∧
    (publishEvent webAlwaysOk 10 (some "order.created") none none none
      (.obj []) stEmpty).1.events.length = 0 := by
  exact ⟨rfl, rfl, rfl⟩

/-- C6 amended: publish fails synchronously when `event_type` or
`payload` is missing — the INSERT is rejected by the corresponding NOT
NULL constraint of event_queue and the route surfaces the error as a 400
(no application-level ValidationError is raised) — and in that case the
store is untouched, so no event row is ever created.  Otherwise the
INSERT appends a new row in `pending` status (the schema default), grows
the table by exactly one row, and reports the fresh id — the immediate
delivery pass triggered for non-scheduled events cannot fail, because
the freshly inserted row is always found. -/
theorem c6_publish_amended (web : Webhook) (now : Nat) (etype : Option String)
    (src : Option Nat) (payload : Option JValue) (sched : Option Nat)
    (meta : JValue) (st : HubState) :
    ((etype = none ∨ payload = none) →
      (publishEvent web now etype src payload sched meta st).1 = st ∧
      ∃ col, (publishEvent web now etype src payload sched meta st).2
        = .error (.dbNotNull col)) ∧
    (∀ t p, etype = some t → payload = some p →
      (mkEventRow now t src p sched meta st).status = .pending ∧
      (publishEvent web now etype src payload sched meta st).1.events.length
        = st.events.length + 1 ∧
      (publishEvent web now etype src payload sched meta st).2
        = .ok (freshEventId st)) := by
  constructor
  · intro hmiss
    cases hety : etype with
    | none => exact ⟨rfl, "event_type", rfl⟩
    | some t =>
        cases hpl : payload with
        | none => exact ⟨rfl, "payload", rfl⟩
        | some p =>
            rw [hety, hpl] at hmiss
            rcases hmiss with h | h <;> exact absurd h (by simp)
  · intro t p hety hpl
    subst hety
    subst hpl
    refine ⟨rfl, ?_⟩
    show ((publishEvent web now (some t) src (some p) sched meta st).1.events.length
        = st.events.length + 1) ∧ _
    unfold publishEvent
    cases sched with
    | some s0 =>
        dsimp only
        exact ⟨by simp, rfl⟩
    | none =>
        dsimp only
        have hfound : (findEvent
            { st with events := st.events ++ [mkEventRow now t src p none meta st] }
            (mkEventRow now t src p none meta st).event_id).isSome := by
          unfold findEvent
          rw [List.find?_isSome]
          exact ⟨mkEventRow now t src p none meta st,
            List.mem_append_right _ (List.mem_cons_self _ _), by simp⟩
        obtain ⟨st2, h2⟩ := deliverEvent_ok_of_found web now
          (mkEventRow now t src p none meta st).event_id
          { st with events := st.events ++ [mkEventRow now t src p none meta st] } hfound
        rw [h2]
        dsimp only
        constructor
        · have hlen := events_length_deliverEvent web now
            (mkEventRow now t src p none meta st).event_id
            { st with events := st.events ++ [mkEventRow now t src p none meta st] } st2 h2
          rw [hlen]
          simp
        · rfl

/-- Witness for C6 at a concrete failing publish: missing `event_type`
against the empty store leaves the store untouched and reports a NOT
NULL violation. -/
theorem c6_publish_amended_witness :
    (publishEvent webAlwaysOk 10 none none (some (.obj [])) none (.obj []) stEmpty).1
      = stEmpty ∧
    ∃ col, (publishEvent webAlwaysOk 10 none none (some (.obj [])) none (.obj [])
      stEmpty).2 = .error (.dbNotNull col) :=
  (c6_publish_amended webAlwaysOk 10 none none (some (.obj [])) none
    (.obj []) stEmpty).1 (Or.inl rfl)

/-! ## C8 -/

/-- C8 counterexample: the claim says the events of one sweep's batch are
processed independently, so a failing event does not block the others.
In the sweep loop `for (const event of pendingEvents) await
deliverEvent(...)` a throw from one iteration aborts the remaining
iterations (the surrounding try/catch only protects the timer).
Concretely, a batch whose first element faults (here the `Event not
found` throw — the shape any store fault takes inside the loop) leaves
the second event — pending, with a matching subscriber and a webhook
that would succeed — completely unprocessed in that sweep: no delivery
record, still `pending`. -/
theorem c8_fault_blocks_batch_cex :
    ((processBatch webAlwaysOk 100 [5, 0] stOneSub).1.events.map
      fun (e : EventRow) => (e.event_id, e.status)) = [(0, .pending)] ∧
    (processBatch webAlwaysOk 100 [5, 0] stOneSub).1.deliveryLog.length = 0 ∧
    (processBatch webAlwaysOk 100 [5, 0] stOneSub).2 = some "Event not found" := by
  exact ⟨rfl, rfl, rfl⟩

/-- C8 amended: each sweep of the background loop fires on a fixed
5000 ms interval and pulls at most 10 due events; an empty batch is a
no-op; the batch is processed sequentially in order — when a delivery
pass returns, the loop advances to the next id, and when it throws, the
remaining batch elements are abandoned for a later sweep — and the
sweep's try/catch swallows the fault (sweepOnce is a total function of
the state), so the recurring timer always survives to the next tick. -/
theorem c8_scheduler_amended (web : Webhook) (now : Nat) (st : HubState) :
    schedulerIntervalMs = 5000 ∧
    (getPendingEvents sweepBatchLimit now st).length ≤ sweepBatchLimit ∧
    (st.events.filter (fun e => isDue now e) = [] → sweepOnce web now st = st) ∧
    (∀ id rest st0 st1, deliverEvent web now id st0 = .ok st1 →
      processBatch web now (id :: rest) st0 = processBatch web now rest st1) ∧
    (∀ id rest st0 msg, deliverEvent web now id st0 = .error msg →
      processBatch web now (id :: rest) st0 = (st0, some msg)) := by
  refine ⟨rfl, ?_, ?_, ?_, ?_⟩
  · exact List.length_take_le _ _
  · intro hempty
    unfold sweepOnce getPendingEvents
    rw [hempty]
    rfl
  · intro id rest st0 st1 h
    conv_lhs => rw [processBatch]
    rw [h]
  · intro id rest st0 msg h
    conv_lhs => rw [processBatch]
    rw [h]

/-- Witness for C8: the empty store has no due events, so a sweep over it
is a no-op. -/
theorem c8_scheduler_amended_witness :
    sweepOnce webAlwaysOk 100 stEmpty = stEmpty :=
  (c8_scheduler_amended webAlwaysOk 100 stEmpty).2.2.1 rfl

end A20

namespace A20

/-! ## C7 -/

/-- Propositional reading of the WHERE clause of getPendingEvents. -/
theorem isDue_iff (now : Nat) (e : EventRow) :
    isDue now e = true ↔
      (e.status = .pending ∨ e.status = .retrying) ∧
      (e.scheduled_for = none ∨ ∃ t, e.scheduled_for = some t ∧ t ≤ now) := by
  unfold isDue
  cases hs : e.scheduled_for with
  | none => simp [hs]
  | some t => simp [hs]

/-- C7: getPendingEvents (the spec's getDueEvents) returns only events of
the store whose status is `pending` or `retrying` and whose
scheduled_for is NULL or has passed, sorted oldest-first by created_at,
returns at most `limit` of them, and omits no due event as long as the
number of due events fits in the limit. -/
theorem c7_getDueEvents_spec (limit now : Nat) (st : HubState) :
    (∀ e ∈ getPendingEvents limit now st,
      e ∈ st.events ∧
      (e.status = .pending ∨ e.status = .retrying) ∧
      (e.scheduled_for = none ∨ ∃ t, e.scheduled_for = some t ∧ t ≤ now)) ∧
    List.Pairwise byCreated (getPendingEvents limit now st) ∧
    (getPendingEvents limit now st).length ≤ limit ∧
    ((st.events.filter fun e => isDue now e).length ≤ limit →
      ∀ e ∈ st.events, isDue now e = true → e ∈ getPendingEvents limit now st) := by
  refine ⟨?_, ?_, ?_, ?_⟩
  · intro e he
    have h1 : e ∈ List.insertionSort byCreated (st.events.filter fun e => isDue now e) :=
      (List.take_sublist limit _).subset he
    have h2 : e ∈ st.events.filter fun e => isDue now e :=
      (List.perm_insertionSort byCreated _).mem_iff.mp h1
    have h3 := List.mem_filter.mp h2
    exact ⟨h3.1, ((isDue_iff now e).mp h3.2).1, ((isDue_iff now e).mp h3.2).2⟩
  · exact (List.sorted_insertionSort byCreated _).sublist (List.take_sublist limit _)
  · exact List.length_take_le _ _
  · intro hlen e he hdue
    have h2 : e ∈ List.insertionSort byCreated (st.events.filter fun e => isDue now e) :=
      (List.perm_insertionSort byCreated _).mem_iff.mpr (List.mem_filter.mpr ⟨he, hdue⟩)
    have hslen : (List.insertionSort byCreated
        (st.events.filter fun e => isDue now e)).length ≤ limit := by
      rw [(List.perm_insertionSort byCreated _).length_eq]
      exact hlen
    unfold getPendingEvents
    rw [List.take_of_length_le hslen]
    exact h2

/-- Witness for C7: the pending Scenario A event is due and returned by a
sweep's query over its store. -/
theorem c7_getDueEvents_spec_witness :
    orderEvent ∈ getPendingEvents 10 100 stOneSub :=
  (c7_getDueEvents_spec 10 100 stOneSub).2.2.2 (by decide) orderEvent
    (List.mem_cons_self _ _) (by decide)

/-! ## C5 -/

/-- Per-pair audit bookkeeping of a single deliverToSubscriber call: one
record appended when the filter allows the pair (success or failure
alike), the log untouched when it does not. -/
theorem deliveryLog_deliverToSubscriber (web : Webhook) (now : Nat)
    (ev : EventRow) (sub : Subscription) (st : HubState) :
    (deliverToSubscriber web now ev sub st).deliveryLog.length =
      st.deliveryLog.length +
        (if filterAllows ev.payload sub.filter_criteria then 1 else 0) ∧
    (filterAllows ev.payload sub.filter_criteria = false →
      (deliverToSubscriber web now ev sub st).deliveryLog = st.deliveryLog) := by
  unfold deliverToSubscriber
  by_cases h : filterAllows ev.payload sub.filter_criteria
  · rw [if_pos h, if_pos h]
    refine ⟨?_, fun hfalse => absurd h (by simp [hfalse])⟩
    cases hw : web ev sub with
    | ok r => simp [logDelivery]
    | error m =>
        dsimp only
        by_cases hr : ev.retry_count < ev.max_retries
        · rw [if_pos hr]
          simp [scheduleRetry, logDelivery]
        · rw [if_neg hr]
          simp [logDelivery]
  · rw [if_neg h, if_neg h]
    simp [h]

theorem deliveryLog_foldDeliver (web : Webhook) (now : Nat) (ev : EventRow)
    (subsList : List Subscription) (st : HubState) :
    (subsList.foldl (fun acc sub => deliverToSubscriber web now ev sub acc) st).deliveryLog.length
      = st.deliveryLog.length +
        (subsList.filter fun sub => filterAllows ev.payload sub.filter_criteria).length := by
  induction subsList generalizing st with
  | nil => simp
  | cons sub rest ih =>
      rw [List.foldl_cons, ih, (deliveryLog_deliverToSubscriber web now ev sub st).1,
        List.filter_cons]
      by_cases h : filterAllows ev.payload sub.filter_criteria
      · simp [h]
        omega
      · simp [h]

/-- C5: the audit guarantee.  Each deliverToSubscriber call writes
exactly one DeliveryRecord when the subscription's filter matches the
event payload — success or failure alike — and none when it does not;
consequently a deliverEvent pass grows the delivery log by exactly the
number of matching active subscriptions of the event's type. -/
theorem c5_delivery_log_exactness (web : Webhook) (now id : Nat)
    (st : HubState) (ev : EventRow) (hfind : findEvent st id = some ev) :
    (∀ sub st0,
      (deliverToSubscriber web now ev sub st0).deliveryLog.length =
        st0.deliveryLog.length +
          (if filterAllows ev.payload sub.filter_criteria then 1 else 0) ∧
      (filterAllows ev.payload sub.filter_criteria = false →
        (deliverToSubscriber web now ev sub st0).deliveryLog = st0.deliveryLog)) ∧
    (∃ st', deliverEvent web now id st = .ok st' ∧
      st'.deliveryLog.length = st.deliveryLog.length +
        ((getSubscriptions ev.event_type st).filter
          fun sub => filterAllows ev.payload sub.filter_criteria).length) := by
  refine ⟨fun sub st0 => deliveryLog_deliverToSubscriber web now ev sub st0, ?_⟩
  have hok : deliverEvent web now id st = .ok (updateEventStatus now id .completed none
      ((getSubscriptions ev.event_type st).foldl
        (fun acc sub => deliverToSubscriber web now ev sub acc)
        (updateEventStatus now id .processing none st))) := by
    unfold deliverEvent
    rw [hfind]
  refine ⟨_, hok, ?_⟩
  exact deliveryLog_foldDeliver web now ev (getSubscriptions ev.event_type st)
    (updateEventStatus now id .processing none st)

/-- Witness for C5 at Scenario A: delivering the order event over its
single matching unfiltered subscription appends exactly one record. -/
theorem c5_delivery_log_exactness_witness :
    ∃ st', deliverEvent webAlwaysOk 100 0 stOneSub = .ok st' ∧
      st'.deliveryLog.length = stOneSub.deliveryLog.length +
        ((getSubscriptions orderEvent.event_type stOneSub).filter
          fun sub => filterAllows orderEvent.payload sub.filter_criteria).length :=
  (c5_delivery_log_exactness webAlwaysOk 100 0 stOneSub orderEvent rfl).2

end A20

namespace A20

/-! ## C2

The two UPDATE statements are unconditional (`WHERE event_id = $1` with
no status guard), so invoked directly on a terminal row they rewrite it;
yet no system execution ever targets a terminal row: publish delivers
only the freshly inserted pending row, and sweeps deliver only rows that
the due-query returned, which excludes terminal statuses. -/

theorem processBatch_cons_ok (web : Webhook) (now id : Nat) (rest : List Nat)
    (st st1 : HubState) (hd : deliverEvent web now id st = .ok st1) :
    processBatch web now (id :: rest) st = processBatch web now rest st1 := by
  conv_lhs => rw [processBatch]
  rw [hd]

theorem processBatch_cons_error (web : Webhook) (now id : Nat) (rest : List Nat)
    (st : HubState) (msg : String) (hd : deliverEvent web now id st = .error msg) :
    processBatch web now (id :: rest) st = (st, some msg) := by
  conv_lhs => rw [processBatch]
  rw [hd]

theorem WF_deliverEvent (web : Webhook) (now id : Nat) (st st' : HubState)
    (h : deliverEvent web now id st = .ok st') (hwf : WF st) : WF st' := by
  show evIds st' = List.range st'.events.length
  rw [evIds_deliverEvent web now id st st' h, events_length_deliverEvent web now id st st' h]
  exact hwf

theorem WF_insert (st : HubState) (row : EventRow) (hwf : WF st)
    (hid : row.event_id = st.events.length) :
    WF { st with events := st.events ++ [row] } := by
  have hwf2 : st.events.map (fun e => e.event_id) = List.range st.events.length := hwf
  show (st.events ++ [row]).map (fun e => e.event_id)
      = List.range (st.events ++ [row]).length
  rw [List.map_append, List.length_append]
  simp [hwf2, hid, List.range_succ]

theorem WF_nodup (st : HubState) (hwf : WF st) :
    (st.events.map fun e => e.event_id).Nodup := by
  rw [hwf]
  exact List.nodup_range _

theorem event_id_lt_of_WF (st : HubState) (hwf : WF st) (e : EventRow)
    (he : e ∈ st.events) : e.event_id < st.events.length := by
  have h1 : e.event_id ∈ st.events.map fun e => e.event_id :=
    List.mem_map_of_mem _ he
  rw [hwf] at h1
  exact List.mem_range.mp h1

/-- A terminal row never satisfies the due-query WHERE clause. -/
theorem terminal_not_due (now : Nat) (e : EventRow)
    (ht : isTerminal e.status = true) : isDue now e = false := by
  unfold isTerminal at ht
  unfold isDue
  cases hs : e.status <;> rw [hs] at ht <;> simp at ht ⊢

/-- Rows returned by the due-query are rows of the store that satisfy the
WHERE clause. -/
theorem mem_getPendingEvents (limit now : Nat) (st : HubState) (d : EventRow)
    (hd : d ∈ getPendingEvents limit now st) :
    d ∈ st.events ∧ isDue now d = true := by
  have h1 : d ∈ List.insertionSort byCreated (st.events.filter fun e => isDue now e) :=
    (List.take_sublist limit _).subset hd
  exact List.mem_filter.mp ((List.perm_insertionSort byCreated _).mem_iff.mp h1)

theorem WF_processBatch (web : Webhook) (now : Nat) (ids : List Nat)
    (st : HubState) (hwf : WF st) : WF (processBatch web now ids st).1 := by
  induction ids generalizing st with
  | nil => exact hwf
  | cons id rest ih =>
      cases hd : deliverEvent web now id st with
      | ok st1 =>
          rw [processBatch_cons_ok web now id rest st st1 hd]
          exact ih st1 (WF_deliverEvent web now id st st1 hd hwf)
      | error msg =>
          rw [processBatch_cons_error web now id rest st msg hd]
          exact hwf

theorem mem_processBatch (web : Webhook) (now : Nat) (ids : List Nat)
    (st : HubState) (e : EventRow) (he : e ∈ st.events)
    (hn : e.event_id ∉ ids) : e ∈ (processBatch web now ids st).1.events := by
  induction ids generalizing st with
  | nil => exact he
  | cons id rest ih =>
      have hn1 : e.event_id ≠ id := fun hcontra => hn (hcontra ▸ List.mem_cons_self _ _)
      have hn2 : e.event_id ∉ rest := fun hcontra => hn (List.mem_cons_of_mem _ hcontra)
      cases hd : deliverEvent web now id st with
      | ok st1 =>
          rw [processBatch_cons_ok web now id rest st st1 hd]
          exact ih st1 (mem_events_deliverEvent web now id st st1 hd e he hn1) hn2
      | error msg =>
          rw [processBatch_cons_error web now id rest st msg hd]
          exact he

theorem sweep_preserves (web : Webhook) (now : Nat) (st : HubState) (hwf : WF st) :
    WF (sweepOnce web now st) ∧
    ∀ e ∈ st.events, isTerminal e.status = true → e ∈ (sweepOnce web now st).events := by
  constructor
  · exact WF_processBatch web now _ st hwf
  · intro e he ht
    apply mem_processBatch web now _ st e he
    intro hmem
    obtain ⟨d, hd, hde⟩ := List.mem_map.mp hmem
    obtain ⟨hdmem, hdue⟩ := mem_getPendingEvents sweepBatchLimit now st d hd
    have : d = e := List.inj_on_of_nodup_map (WF_nodup st hwf) hdmem he hde
    subst this
    rw [terminal_not_due now d ht] at hdue
    exact absurd hdue (by simp)

theorem publish_preserves (web : Webhook) (now : Nat) (etype : Option String)
    (src : Option Nat) (payload : Option JValue) (sched : Option Nat)
    (meta : JValue) (st : HubState) (hwf : WF st) :
    WF (publishEvent web now etype src payload sched meta st).1 ∧
    ∀ e ∈ st.events, isTerminal e.status = true →
      e ∈ (publishEvent web now etype src payload sched meta st).1.events := by
  cases etype with
  | none => exact ⟨hwf, fun e he _ => he⟩
  | some t =>
      cases payload with
      | none => exact ⟨hwf, fun e he _ => he⟩
      | some p =>
          have hwf1 : WF { st with events := st.events ++ [mkEventRow now t src p sched meta st] } :=
            WF_insert st _ hwf rfl
          have hne : ∀ e ∈ st.events, e.event_id ≠ (mkEventRow now t src p sched meta st).event_id := by
            intro e he
            have hlt := event_id_lt_of_WF st hwf e he
            exact fun hcontra => absurd (hcontra ▸ hlt) (by
              show ¬ (mkEventRow now t src p sched meta st).event_id < st.events.length
              exact Nat.lt_irrefl _)
          unfold publishEvent
          cases sched with
          | some s0 =>
              exact ⟨hwf1, fun e he _ => List.mem_append_left _ he⟩
          | none =>
              dsimp only
              cases hd : deliverEvent web now (mkEventRow now t src p none meta st).event_id
                  { st with events := st.events ++ [mkEventRow now t src p none meta st] } with
              | ok st2 =>
                  refine ⟨WF_deliverEvent web now _ _ st2 hd hwf1, ?_⟩
                  intro e he _
                  exact mem_events_deliverEvent web now _ _ st2 hd e
                    (List.mem_append_left _ he) (hne e he)
              | error msg =>
                  exact ⟨hwf1, fun e he _ => List.mem_append_left _ he⟩

theorem execCmd_preserves (c : Cmd) (st : HubState) (hwf : WF st) :
    WF (execCmd c st) ∧
    ∀ e ∈ st.events, isTerminal e.status = true → e ∈ (execCmd c st).events := by
  cases c with
  | publish now web etype src payload sched meta =>
      exact publish_preserves web now etype src payload sched meta st hwf
  | sweep now web => exact sweep_preserves web now st hwf
  | subscribeCmd appId etype url criteria mode => exact ⟨hwf, fun e he _ => he⟩
  | unsubscribeCmd id => exact ⟨hwf, fun e he _ => he⟩

/-- C2 counterexample: the claim says that once an event is terminal, no
subsequent updateEventStatus or scheduleRetry call changes its status or
retry_count.  Both UPDATEs are unconditional: invoked on the `failed`
row they rewrite it — updateEventStatus moves it to `processing`,
scheduleRetry moves it to `retrying` and increments retry_count. -/
theorem c2_terminal_unguarded_cex :
    isTerminal failedOrderEvent.status = true ∧
    ((updateEventStatus 70 0 .processing none stFailedEvent).events.map
      fun (e : EventRow) => e.status) = [.processing] ∧
    ((scheduleRetry 70 0 stFailedEvent).events.map
      fun (e : EventRow) => (e.status, e.retry_count)) = [(.retrying, 1)] := by
  exact ⟨rfl, rfl, rfl⟩

/-- C2 amended: updateEventStatus and scheduleRetry apply
unconditionally, so a direct call on a terminal row does change it; but
in every system execution — an arbitrary sequence of publish steps,
scheduler sweeps and subscription management from a well-formed store —
no step ever targets a terminal event (publish delivers only its fresh
pending row; a sweep delivers only ids returned by the due-query, which
excludes terminal statuses), so an event row in a terminal state
persists verbatim — same status, same retry_count — through all later
steps, the store stays well-formed, and processed_at is written exactly
when updateEventStatus writes a terminal status. -/
theorem c2_terminal_persists_in_traces (cmds : List Cmd) (st : HubState)
    (hwf : WF st) (e : EventRow) (he : e ∈ st.events)
    (ht : isTerminal e.status = true) :
    e ∈ (execCmds cmds st).events ∧ WF (execCmds cmds st) ∧
    ∀ now s err r, (updRow now s err r).processed_at
      = (if isTerminal s then some now else none) := by
  induction cmds generalizing st with
  | nil => exact ⟨he, hwf, fun _ _ _ _ => rfl⟩
  | cons c rest ih =>
      have hstep := execCmd_preserves c st hwf
      exact ih (execCmd c st) hstep.1 (hstep.2 e he ht)

/-- A short system execution over the store holding the failed event: a
sweep, a publish that triggers an immediate (failing) delivery of the
fresh event, and an unsubscribe. -/
def cmdsAfterFailure : List Cmd :=
  [Cmd.sweep 100 webAlwaysOk,
   Cmd.publish 200 webAlwaysFail (some "order.created") none
     (some (.obj [("id", .num 2)])) none (.obj []),
   Cmd.unsubscribeCmd 0]

/-- Witness for C2: the failed row survives the execution verbatim. -/
theorem c2_terminal_persists_in_traces_witness :
    failedOrderEvent ∈ (execCmds cmdsAfterFailure stFailedEvent).events ∧
    WF (execCmds cmdsAfterFailure stFailedEvent) ∧
    ∀ now s err r, (updRow now s err r).processed_at
      = (if isTerminal s then some now else none) :=
  c2_terminal_persists_in_traces cmdsAfterFailure stFailedEvent (by rfl)
    failedOrderEvent (List.mem_cons_self _ _) (by rfl)

end A20
